import Mathlib

/-!
Verification of the display-ownership arbitration and presentation
controller of the yamui splash application (src/yamui.c), as a shallow
embedding in Lean 4.

The global state touched by each C function is made explicit: functions
become pure Lean functions from (inputs, state) to (state, outputs).
Effects that the claims talk about (timer creation, stop requests,
systemd notification, frames drawn) are reified as explicit output
values.
-/

namespace Yamui

/-! ## DISPLAY (src/yamui.c, DISPLAY section)

The four module-level booleans `display_acquired`, `display_released`,
`display_enabled`, `display_blanked` are collected into one record.
The outcome of the low-level `gr_init()` call is abstracted as a
boolean parameter `grInitOk` supplied by the environment. -/

structure DisplayState where
  acquired : Bool
  released : Bool
  enabled  : Bool
  blanked  : Bool
deriving DecidableEq, Repr, Fintype

/-- Initial state at process start: all four flags false. -/
def DisplayState.initial : DisplayState :=
  { acquired := false, released := false, enabled := false, blanked := false }

/-- Embedding of `display_release()`: idempotently sets `display_released`.
(The `freeLogo()` / `gr_exit()` calls touch no modelled state.) -/
def display_release (s : DisplayState) : DisplayState :=
  if !s.released then { s with released := true } else s

/-- Embedding of `display_acquire()`: tries for real only once, and only if
`display_release()` has not been called yet.  On `gr_init()` failure the code
logs, calls `display_release()` and `mainloop_stop()`. -/
def display_acquire (grInitOk : Bool) (s : DisplayState) : DisplayState :=
  if !s.acquired && !s.released then
    let s1 := { s with acquired := true }
    if grInitOk then s1 else display_release s1
  else s

/-- Embedding of `display_is_acquired()`. -/
def display_is_acquired (s : DisplayState) : Bool :=
  s.acquired && !s.released

/-- Embedding of `display_set_blanked()`: toggles the blank flag only when
acquired and the value actually changes. -/
def display_set_blanked (blanked : Bool) (s : DisplayState) : DisplayState :=
  if display_is_acquired s then
    if s.blanked != blanked then { s with blanked := blanked } else s
  else s

/-- Embedding of `display_set_updates_enabled()`: lazily acquires on enable,
forces `enabled := false` when not acquired, and on an actual transition
unblanks+redraws (true) or blanks (false). -/
def display_set_updates_enabled (grInitOk : Bool) (enabled : Bool)
    (s : DisplayState) : DisplayState :=
  let s1 := if enabled then display_acquire grInitOk s else s
  let e := if !(display_is_acquired s1) then false else enabled
  if s1.enabled != e then
    if e then
      display_set_blanked false { s1 with enabled := true }
    else
      display_set_blanked true { s1 with enabled := false }
  else s1

/-- Embedding of `display_can_be_drawn()`. -/
def display_can_be_drawn (s : DisplayState) : Bool :=
  display_is_acquired s && s.enabled && !s.blanked

/-- The four operations of the display controller; `grInitOk` is the
environment's answer to the underlying `gr_init()` call, consulted only when
an acquisition is actually attempted. -/
inductive DisplayOp
  | acquire (grInitOk : Bool)
  | release
  | setUpdatesEnabled (grInitOk : Bool) (enabled : Bool)
  | setBlanked (blanked : Bool)
deriving DecidableEq, Repr, Fintype

def displayStep (op : DisplayOp) (s : DisplayState) : DisplayState :=
  match op with
  | .acquire ok => display_acquire ok s
  | .release => display_release s
  | .setUpdatesEnabled ok e => display_set_updates_enabled ok e s
  | .setBlanked b => display_set_blanked b s

def displayRun (ops : List DisplayOp) (s : DisplayState) : DisplayState :=
  ops.foldl (fun t op => displayStep op t) s

/-! Helper lemmas about single display steps. -/

theorem displayStep_preserves_released (op : DisplayOp) (s : DisplayState)
    (h : s.released = true) : (displayStep op s).released = true := by
  revert op s h
  decide

theorem displayStep_preserves_enabled_imp_acquired (op : DisplayOp)
    (s : DisplayState) (h : s.enabled = true → s.acquired = true) :
    (displayStep op s).enabled = true → (displayStep op s).acquired = true := by
  revert op s h
  decide

theorem displayRun_preserves_released (ops : List DisplayOp) (s : DisplayState)
    (h : s.released = true) : (displayRun ops s).released = true := by
  induction ops generalizing s with
  | nil => exact h
  | cons op rest ih =>
      exact ih (displayStep op s) (displayStep_preserves_released op s h)

theorem displayRun_preserves_enabled_imp_acquired (ops : List DisplayOp)
    (s : DisplayState) (h : s.enabled = true → s.acquired = true) :
    (displayRun ops s).enabled = true → (displayRun ops s).acquired = true := by
  induction ops generalizing s with
  | nil => exact h
  | cons op rest ih =>
      exact ih (displayStep op s)
        (displayStep_preserves_enabled_imp_acquired op s h)

/-- **C1.** For every sequence of display-controller operations:
`acquire()` is idempotent; once `release()` has run, `released` stays true
under every further operation and a subsequent `acquire()` is a no-op (it
never succeeds); and in every state reachable from the initial state,
`enabled` implies `acquired`. -/
theorem C1_display_invariants :
    (∀ (ok ok2 : Bool) (s : DisplayState),
        display_acquire ok2 (display_acquire ok s) = display_acquire ok s)
    ∧ (∀ (ops : List DisplayOp) (s : DisplayState), s.released = true →
        (displayRun ops s).released = true)
    ∧ (∀ (ok : Bool) (s : DisplayState), s.released = true →
        display_acquire ok s = s)
    ∧ (∀ ops : List DisplayOp,
        (displayRun ops DisplayState.initial).enabled = true →
        (displayRun ops DisplayState.initial).acquired = true) := by
  refine ⟨?_, ?_, ?_, ?_⟩
  · decide
  · exact displayRun_preserves_released
  · decide
  · intro ops
    exact displayRun_preserves_enabled_imp_acquired ops DisplayState.initial
      (by decide)

/-- Witness for C1: concrete run in which the display got released mid-way
and got enabled before that; all three hypothesised parts applied at
concrete inputs. -/
theorem C1_display_invariants_witness :
    (displayRun [DisplayOp.release, DisplayOp.acquire true]
      { acquired := false, released := true, enabled := false,
        blanked := false }).released = true
    ∧ display_acquire true
        { acquired := false, released := true, enabled := false,
          blanked := false } =
        { acquired := false, released := true, enabled := false,
          blanked := false }
    ∧ ((displayRun [DisplayOp.setUpdatesEnabled true true]
          DisplayState.initial).acquired = true) :=
  ⟨C1_display_invariants.2.1 [DisplayOp.release, DisplayOp.acquire true]
      { acquired := false, released := true, enabled := false,
        blanked := false } (by decide),
   C1_display_invariants.2.2.1 true
      { acquired := false, released := true, enabled := false,
        blanked := false } (by decide),
   C1_display_invariants.2.2.2 [DisplayOp.setUpdatesEnabled true true]
      (by decide)⟩

/-! ## Presentation-mode draw callbacks (src/yamui.c, APP section)

Each `app_draw_*_cb` function sets the redraw hook and then draws only when
`display_can_be_drawn()` holds.  Drawing is reified as a list of graphics
commands; `none` means the frame was silently dropped. -/

inductive DrawCmd
  | color (r g b a : Nat)
  | clearScreen
  | text (x y : Nat) (s : String)
  | showLogo
  | showProgress (step : Int)
  | flip
deriving DecidableEq, Repr

/-- Embedding of `app_draw_text()`: draws the `--text` string, if any. -/
def app_draw_text (app_text : Option String) : List DrawCmd :=
  match app_text with
  | some t => [.color 255 255 255 255, .text 20 20 t]
  | none => []

/-- Embedding of `app_draw_text_only_cb()` (frame content only; the redraw
hook assignment has no modelled state). -/
def app_draw_text_only_cb (s : DisplayState) (app_text : Option String) :
    Option (List DrawCmd) :=
  if display_can_be_drawn s then
    some (app_draw_text app_text ++ [.flip])
  else none

/-- Embedding of `app_draw_single_image_cb()`. -/
def app_draw_single_image_cb (s : DisplayState) (app_text : Option String) :
    Option (List DrawCmd) :=
  if display_can_be_drawn s then
    some (app_draw_text app_text ++ [.showLogo, .flip])
  else none

/-- Embedding of `app_draw_progress_bar_cb()`. -/
def app_draw_progress_bar_cb (s : DisplayState) (app_text : Option String)
    (app_step : Int) : Option (List DrawCmd) :=
  if display_can_be_drawn s then
    some (app_draw_text app_text ++ [.showProgress app_step, .flip])
  else none

/-- Embedding of `app_draw_animate_images_cb()`. -/
def app_draw_animate_images_cb (s : DisplayState) (app_text : Option String) :
    Option (List DrawCmd) :=
  if display_can_be_drawn s then
    some ([DrawCmd.color 0 0 0 255, .clearScreen] ++ app_draw_text app_text
      ++ [.showLogo, .flip])
  else none

/-- **C2.** In every state, `canDraw()` returns true exactly when the display
is acquired (held and not released), updates are enabled and the display is
not blanked; and each presentation-mode draw callback produces a frame iff
`canDraw()` holds, silently dropping it otherwise. -/
theorem C2_canDraw_gates_every_frame :
    (∀ s : DisplayState,
        display_can_be_drawn s
          = (display_is_acquired s && s.enabled && !s.blanked))
    ∧ (∀ (s : DisplayState) (t : Option String) (st : Int),
        app_draw_progress_bar_cb s t st = none
          ↔ display_can_be_drawn s = false)
    ∧ (∀ (s : DisplayState) (t : Option String),
        (app_draw_text_only_cb s t = none ↔ display_can_be_drawn s = false)
        ∧ (app_draw_single_image_cb s t = none
            ↔ display_can_be_drawn s = false)
        ∧ (app_draw_animate_images_cb s t = none
            ↔ display_can_be_drawn s = false)) := by
  refine ⟨fun s => rfl, ?_, ?_⟩
  · intro s t st
    unfold app_draw_progress_bar_cb
    rcases h : display_can_be_drawn s with _ | _ <;> simp [h]
  · intro s t
    unfold app_draw_text_only_cb app_draw_single_image_cb
      app_draw_animate_images_cb
    rcases h : display_can_be_drawn s with _ | _ <;> simp [h]

/-- Witness for C2: in a blanked (reachable) state the progress-bar frame is
dropped, and conversely in a drawable state the text-only callback draws. -/
theorem C2_canDraw_gates_every_frame_witness :
    app_draw_progress_bar_cb
      { acquired := true, released := false, enabled := true, blanked := true }
      none 7 = none :=
  (C2_canDraw_gates_every_frame.2.1
    { acquired := true, released := false, enabled := true, blanked := true }
    none 7).mpr (by decide)

/-! ## UNIX_CLIENT (src/yamui.c, `unix_client_terminate_server()`)

The environment's answer to the `connect()` / first `read()` calls is made
explicit.  The function's boolean result is `ack`. -/

inductive ReadOutcome
  | readError
  | gotData
  | eof
deriving DecidableEq, Repr

inductive ConnectOutcome
  | socketFailed
  | refused
  | otherError
  | connected (firstRead : ReadOutcome)
deriving DecidableEq, Repr

inductive LogLevel
  | debug
  | err
deriving DecidableEq, Repr

/-- Embedding of `unix_client_terminate_server()`: returns `ack`, which is
set to true only after a successful connect followed by a clean EOF read.
A refused connection is logged at debug level (server not running) but still
falls through to `cleanup` with `ack == false`. -/
def unix_client_terminate_server : ConnectOutcome → Bool
  | .socketFailed => false
  | .refused => false
  | .otherError => false
  | .connected .readError => false
  | .connected .gotData => false
  | .connected .eof => true

/-- Log record emitted by `unix_client_terminate_server()` on its
connect/read path (the refused case is special-cased to a debug message). -/
def unix_client_terminate_server_log : ConnectOutcome → List LogLevel
  | .socketFailed => [.err]
  | .refused => [.debug]
  | .otherError => [.err]
  | .connected .readError => [.err]
  | .connected .gotData => [.err]
  | .connected .eof => [.debug]

/-- Exit status of the `--terminate` action in `main()`: on a false result
it logs an error and calls `exit(EXIT_FAILURE)`, otherwise
`exit(EXIT_SUCCESS)`. -/
def main_terminate_action (c : ConnectOutcome) : Nat :=
  if unix_client_terminate_server c then 0 else 1

/-- **C3 counterexample.** A refused connection (no server instance running)
makes `unix_client_terminate_server()` return false, and the `--terminate`
action then exits with the failure status — the claim's required success
result does not hold. -/
theorem C3_counterexample_refused_reports_failure :
    unix_client_terminate_server ConnectOutcome.refused = false
    ∧ main_terminate_action ConnectOutcome.refused = 1 := by
  decide

/-- **C3 (amended).** The handoff-socket client reports success only when a
connect succeeds and yields a clean EOF; a refused connection (no running
instance) is recognised and logged at debug level — not as an error — but is
still reported as failure, as is every other connect or read failure; the
`--terminate` action exits with failure status in all those cases. -/
theorem C3_amended_client_result :
    (∀ c : ConnectOutcome,
        unix_client_terminate_server c = true
          ↔ c = ConnectOutcome.connected ReadOutcome.eof)
    ∧ unix_client_terminate_server_log ConnectOutcome.refused
        = [LogLevel.debug]
    ∧ unix_client_terminate_server_log ConnectOutcome.otherError
        = [LogLevel.err]
    ∧ (∀ c : ConnectOutcome,
        c ≠ ConnectOutcome.connected ReadOutcome.eof →
          main_terminate_action c = 1) := by
  refine ⟨?_, rfl, rfl, ?_⟩
  · intro c
    cases c with
    | connected r => cases r <;> simp [unix_client_terminate_server]
    | socketFailed => simp [unix_client_terminate_server]
    | refused => simp [unix_client_terminate_server]
    | otherError => simp [unix_client_terminate_server]
  · intro c h
    cases c with
    | connected r =>
        cases r with
        | eof => exact absurd rfl h
        | readError => rfl
        | gotData => rfl
    | socketFailed => rfl
    | refused => rfl
    | otherError => rfl

/-- Witness for C3 (amended): applied at the refused and EOF outcomes. -/
theorem C3_amended_client_result_witness :
    unix_client_terminate_server
        (ConnectOutcome.connected ReadOutcome.eof) = true
    ∧ main_terminate_action ConnectOutcome.otherError = 1 :=
  ⟨(C3_amended_client_result.1
      (ConnectOutcome.connected ReadOutcome.eof)).mpr rfl,
   C3_amended_client_result.2.2.2 ConnectOutcome.otherError (by decide)⟩

/-! ## Systemd readiness notification (src/yamui.c, APP + MAIN)

State: `app_already_enabled` and `app_systemd_notify` (the latter is true
when `--systemd` was given and the notification is still pending).
`app_on_enable_from_dbus()` is called from `compositor_method_call_cb()`
whenever a `setUpdatesEnabled(true)` bus call arrives; `main()`'s cleanup
path calls `app_notify_systemd()` unconditionally before exiting. -/

structure AppNotifyState where
  alreadyEnabled : Bool
  notifyPending  : Bool
deriving DecidableEq, Repr, Fintype

/-- State right after option parsing when `--systemd` was given. -/
def AppNotifyState.initial : AppNotifyState :=
  { alreadyEnabled := false, notifyPending := true }

/-- Embedding of `app_notify_systemd()`: emits the `sd_notify` at most once
(second component: whether the notification was sent now). -/
def app_notify_systemd (s : AppNotifyState) : AppNotifyState × Bool :=
  if s.notifyPending then ({ s with notifyPending := false }, true)
  else (s, false)

/-- Embedding of `app_on_enable_from_dbus()`. -/
def app_on_enable_from_dbus (s : AppNotifyState) : AppNotifyState × Bool :=
  if !s.alreadyEnabled then
    app_notify_systemd { s with alreadyEnabled := true }
  else (s, false)

/-- Mainloop events that can touch the notification state. -/
inductive AppEvent
  | dbusSetUpdatesEnabled (enabled : Bool)
  | optimisticEnable
deriving DecidableEq, Repr

/-- Where a notification was emitted. -/
inductive NotifyCause
  | fromDbus
  | fromCleanup
deriving DecidableEq, Repr

/-- One mainloop event: a `setUpdatesEnabled` bus call runs
`app_on_enable_from_dbus()` when its argument is true; the process's own
optimistic early-boot enable (`display_set_updates_enabled(true)` from
`app_start_cb()`) never calls it. -/
def appNotifyStep (ev : AppEvent) (s : AppNotifyState) :
    AppNotifyState × List NotifyCause :=
  match ev with
  | .dbusSetUpdatesEnabled e =>
      if e then
        let r := app_on_enable_from_dbus s
        (r.1, if r.2 then [.fromDbus] else [])
      else (s, [])
  | .optimisticEnable => (s, [])

def appNotifyRun (evs : List AppEvent) (s : AppNotifyState) :
    AppNotifyState × List NotifyCause :=
  match evs with
  | [] => (s, [])
  | ev :: rest =>
      let r := appNotifyStep ev s
      let r2 := appNotifyRun rest r.1
      (r2.1, r.2 ++ r2.2)

/-- One whole run with `--systemd`: the mainloop events, then `main()`'s
cleanup path, which calls `app_notify_systemd()` unconditionally. -/
def appNotifyFullRun (evs : List AppEvent) : List NotifyCause :=
  let r := appNotifyRun evs AppNotifyState.initial
  r.2 ++ (if (app_notify_systemd r.1).2 then [.fromCleanup] else [])

/-- **C4 counterexample.** In a run with `--systemd` in which no
`setUpdatesEnabled(true)` bus call ever arrives, the readiness notification
is still sent — from `main()`'s cleanup path, not from any bus call — so the
claim that the notification happens on the first externally-authorized
enable call fails. -/
theorem C4_counterexample_cleanup_notifies :
    appNotifyFullRun [AppEvent.optimisticEnable] = [NotifyCause.fromCleanup]
    ∧ NotifyCause.fromCleanup ≠ NotifyCause.fromDbus := by
  decide

theorem exists_first_split {α : Type} [DecidableEq α] (a : α) :
    ∀ l : List α, a ∈ l → ∃ pre post, a ∉ pre ∧ l = pre ++ a :: post := by
  intro l
  induction l with
  | nil => intro h; exact absurd h (List.not_mem_nil a)
  | cons b rest ih =>
      intro h
      by_cases hb : b = a
      · exact ⟨[], rest, List.not_mem_nil a, by rw [hb]; rfl⟩
      · have hr : a ∈ rest := by
          rcases List.mem_cons.mp h with h1 | h1
          · exact absurd h1.symm hb
          · exact h1
        obtain ⟨pre, post, hpre, heq⟩ := ih hr
        refine ⟨b :: pre, post, ?_, by rw [heq]; rfl⟩
        intro hmem
        rcases List.mem_cons.mp hmem with h1 | h1
        · exact hb h1.symm
        · exact hpre h1

theorem appNotifyStep_other (ev : AppEvent) (s : AppNotifyState)
    (h : ev ≠ AppEvent.dbusSetUpdatesEnabled true) :
    appNotifyStep ev s = (s, []) := by
  cases ev with
  | optimisticEnable => rfl
  | dbusSetUpdatesEnabled e =>
      cases e with
      | false => rfl
      | true => exact absurd rfl h

theorem appNotifyRun_no_enable (evs : List AppEvent) (s : AppNotifyState)
    (h : AppEvent.dbusSetUpdatesEnabled true ∉ evs) :
    appNotifyRun evs s = (s, []) := by
  induction evs with
  | nil => rfl
  | cons ev rest ih =>
      rw [List.mem_cons, not_or] at h
      show (let r := appNotifyStep ev s
            let r2 := appNotifyRun rest r.1
            ((r2.1, r.2 ++ r2.2) : AppNotifyState × List NotifyCause)) = (s, [])
      rw [appNotifyStep_other ev s (fun he => h.1 he.symm)]
      simp [ih h.2]

theorem appNotifyRun_after_notified (evs : List AppEvent) :
    appNotifyRun evs { alreadyEnabled := true, notifyPending := false }
      = ({ alreadyEnabled := true, notifyPending := false }, []) := by
  induction evs with
  | nil => rfl
  | cons ev rest ih =>
      have hstep : appNotifyStep ev
          { alreadyEnabled := true, notifyPending := false }
          = ({ alreadyEnabled := true, notifyPending := false }, []) := by
        cases ev with
        | optimisticEnable => rfl
        | dbusSetUpdatesEnabled e => cases e <;> rfl
      show (let r := appNotifyStep ev
              { alreadyEnabled := true, notifyPending := false }
            let r2 := appNotifyRun rest r.1
            (r2.1, r.2 ++ r2.2)) = _
      rw [hstep]
      simp [ih]

/-- **C4 (amended).** With `--systemd`, the supervising process manager is
notified exactly once per run, and never by the process's own optimistic
early-boot enable: if any `setUpdatesEnabled(true)` bus call occurs, the
notification fires while handling the first such call (whether or not it
changes the enabled state); if none occurs before shutdown, `main()`'s
cleanup path sends the single notification instead. -/
theorem C4_amended_notify_once :
    (∀ evs : List AppEvent, (appNotifyFullRun evs).length = 1)
    ∧ (∀ pre post : List AppEvent,
        AppEvent.dbusSetUpdatesEnabled true ∉ pre →
          (appNotifyRun pre AppNotifyState.initial).2 = []
          ∧ appNotifyFullRun
              (pre ++ AppEvent.dbusSetUpdatesEnabled true :: post)
              = [NotifyCause.fromDbus])
    ∧ (∀ evs : List AppEvent, AppEvent.dbusSetUpdatesEnabled true ∉ evs →
        appNotifyFullRun evs = [NotifyCause.fromCleanup])
    ∧ (∀ s : AppNotifyState, appNotifyStep AppEvent.optimisticEnable s
        = (s, [])) := by
  have hsplit : ∀ pre post : List AppEvent,
      AppEvent.dbusSetUpdatesEnabled true ∉ pre →
        appNotifyRun (pre ++ AppEvent.dbusSetUpdatesEnabled true :: post)
            AppNotifyState.initial
          = ({ alreadyEnabled := true, notifyPending := false },
             [NotifyCause.fromDbus]) := by
    intro pre post hpre
    induction pre with
    | nil =>
        show (let r := appNotifyStep (AppEvent.dbusSetUpdatesEnabled true)
                AppNotifyState.initial
              let r2 := appNotifyRun post r.1
              (r2.1, r.2 ++ r2.2)) = _
        have h1 : appNotifyStep (AppEvent.dbusSetUpdatesEnabled true)
            AppNotifyState.initial
            = ({ alreadyEnabled := true, notifyPending := false },
               [NotifyCause.fromDbus]) := by decide
        rw [h1]
        simp [appNotifyRun_after_notified post]
    | cons ev rest ih =>
        rw [List.mem_cons, not_or] at hpre
        show (let r := appNotifyStep ev AppNotifyState.initial
              let r2 := appNotifyRun
                (rest ++ AppEvent.dbusSetUpdatesEnabled true :: post) r.1
              (r2.1, r.2 ++ r2.2)) = _
        rw [appNotifyStep_other ev AppNotifyState.initial
          (fun he => hpre.1 he.symm)]
        simp [ih hpre.2]
  have hnone : ∀ evs : List AppEvent,
      AppEvent.dbusSetUpdatesEnabled true ∉ evs →
        appNotifyFullRun evs = [NotifyCause.fromCleanup] := by
    intro evs h
    unfold appNotifyFullRun
    rw [appNotifyRun_no_enable evs AppNotifyState.initial h]
    rfl
  refine ⟨?_, ?_, hnone, fun s => rfl⟩
  · intro evs
    by_cases h : AppEvent.dbusSetUpdatesEnabled true ∈ evs
    · obtain ⟨pre, post, hpre, rfl⟩ :=
        exists_first_split (AppEvent.dbusSetUpdatesEnabled true) evs h
      have := hsplit pre post hpre
      unfold appNotifyFullRun
      rw [this]
      rfl
    · rw [hnone evs h]
      rfl
  · intro pre post hpre
    refine ⟨?_, ?_⟩
    · rw [appNotifyRun_no_enable pre AppNotifyState.initial hpre]
    · unfold appNotifyFullRun
      rw [hsplit pre post hpre]
      rfl

/-- Witness for C4 (amended): a run whose second event is the first
bus-enable; the single notification is the dbus one. -/
theorem C4_amended_notify_once_witness :
    appNotifyFullRun
        [AppEvent.optimisticEnable, AppEvent.dbusSetUpdatesEnabled true,
         AppEvent.dbusSetUpdatesEnabled true]
      = [NotifyCause.fromDbus] :=
  (C4_amended_notify_once.2.1 [AppEvent.optimisticEnable]
    [AppEvent.dbusSetUpdatesEnabled true] (by decide)).2

/-! ## Progress-bar and animation timers (src/yamui.c, APP section)

`app_step` starts at `-1`; `app_start_progress_bar()` /
`app_start_animate_images()` arm a repeating timer and invoke the update
callback once synchronously. -/

inductive TickOutcome
  | drew (step : Int)
  | stopRequested
deriving DecidableEq, Repr

/-- Embedding of the period computation in `app_start_progress_bar()`:
`(app_progress_ms + 101 - 1) / 101`. -/
def app_progress_period (app_progress_ms : Nat) : Nat :=
  (app_progress_ms + 101 - 1) / 101

/-- Embedding of `app_update_progress_bar_cb()`: increments `app_step`; past
100 it requests stop without drawing, otherwise it draws the current step
and keeps the timer. -/
def app_update_progress_bar (app_step : Int) : Int × TickOutcome :=
  let s := app_step + 1
  if s > 100 then (s, .stopRequested) else (s, .drew s)

/-- Trace of the first `n` progress-bar timer callbacks starting from
`app_step = -1`: (current step, steps drawn so far, stop requested). -/
def progressTrace : Nat → Int × List Int × Bool
  | 0 => (-1, [], false)
  | n + 1 =>
      let r := progressTrace n
      if r.2.2 then r
      else
        let t := app_update_progress_bar r.1
        match t.2 with
        | .drew k => (t.1, r.2.1 ++ [k], false)
        | .stopRequested => (t.1, r.2.1, true)

/-- Characterisation of `(D + N - 1) / N` as the ceiling of `D / N`. -/
theorem ceil_div_spec (D N : Nat) (hN : 1 ≤ N) :
    D ≤ N * ((D + N - 1) / N)
    ∧ ∀ q : Nat, D ≤ N * q → (D + N - 1) / N ≤ q := by
  constructor
  · have hdm := Nat.div_add_mod (D + N - 1) N
    have hlt : (D + N - 1) % N < N := Nat.mod_lt _ (by omega)
    set m := N * ((D + N - 1) / N) with hm
    omega
  · intro q hq
    have h1 : D + N - 1 ≤ N * q + (N - 1) := by omega
    have h2 : (D + N - 1) / N ≤ (N * q + (N - 1)) / N :=
      Nat.div_le_div_right h1
    have h3 : (N * q + (N - 1)) / N = q + (N - 1) / N :=
      Nat.mul_add_div (by omega) q (N - 1)
    have h4 : (N - 1) / N = 0 := Nat.div_eq_of_lt (by omega)
    omega

theorem progressTrace_le_101 (n : Nat) (h : n ≤ 101) :
    progressTrace n
      = ((n : Int) - 1, (List.range n).map (fun k => (k : Int)), false) := by
  induction n with
  | zero => rfl
  | succ n ih =>
      have hn : n ≤ 100 := by omega
      rw [progressTrace, ih (by omega)]
      have hno : ¬((n : Int) - 1 + 1 > 100) := by omega
      simp only [app_update_progress_bar, hno, if_false]
      have he : (n : Int) - 1 + 1 = (n : Int) := by ring
      simp [he, List.range_succ]

/-- **C5.** In progress-bar mode with total duration `D`: the tick period is
exactly `ceil(D / 101)`; starting from `app_step = -1` the step counter
increases by one per tick and the drawn steps are exactly `0,…,100`; the
102nd tick takes the step to 101, draws nothing and requests a global stop;
and every per-tick draw is gated by `canDraw()`, the frame being dropped
when it is false. -/
theorem C5_progress_bar_mode :
    (∀ D : Nat,
        D ≤ 101 * app_progress_period D
        ∧ (∀ q : Nat, D ≤ 101 * q → app_progress_period D ≤ q))
    ∧ (∀ n : Nat, n < 101 →
        (progressTrace (n + 1)).1 = (progressTrace n).1 + 1)
    ∧ progressTrace 101
        = (100, (List.range 101).map (fun k => (k : Int)), false)
    ∧ progressTrace 102
        = (101, (List.range 101).map (fun k => (k : Int)), true)
    ∧ app_update_progress_bar 100 = (101, TickOutcome.stopRequested)
    ∧ (∀ (s : DisplayState) (t : Option String) (k : Int),
        display_can_be_drawn s = false → app_draw_progress_bar_cb s t k
          = none) := by
  have h101 : progressTrace 101
      = (100, (List.range 101).map (fun k => (k : Int)), false) := by
    have := progressTrace_le_101 101 (by omega)
    simpa using this
  refine ⟨?_, ?_, h101, ?_, rfl, ?_⟩
  · intro D
    exact ceil_div_spec D 101 (by omega)
  · intro n hn
    rw [progressTrace_le_101 n (by omega),
      progressTrace_le_101 (n + 1) (by omega)]
    push_cast
    ring
  · rw [progressTrace, h101]
    rfl
  · intro s t k h
    unfold app_draw_progress_bar_cb
    rw [h]
    rfl

/-- Witness for C5: period for a 1000 ms progress bar is 10 ms (ceiling of
1000/101), tick 50 increments the step by one, and a blanked state drops
the frame — the theorem applied at concrete inputs. -/
theorem C5_progress_bar_mode_witness :
    app_progress_period 1000 ≤ 10
    ∧ (progressTrace 50).1 = (progressTrace 49).1 + 1
    ∧ app_draw_progress_bar_cb
        { acquired := false, released := false, enabled := false,
          blanked := false } none 3 = none :=
  ⟨(C5_progress_bar_mode.1 1000).2 10 (by decide),
   C5_progress_bar_mode.2.1 49 (by decide),
   C5_progress_bar_mode.2.2.2.2.2
     { acquired := false, released := false, enabled := false,
       blanked := false } none 3 (by decide)⟩

/-- Embedding of the period computation in `app_start_animate_images()`:
`(app_animate_ms + app_image_count - 1) / app_image_count`. -/
def app_animate_period (app_animate_ms app_image_count : Nat) : Nat :=
  (app_animate_ms + app_image_count - 1) / app_image_count

/-- Embedding of `app_update_animate_images_cb()`: advances `app_step` by
one modulo the image count, then loads that image; a load failure requests a
global stop and draws nothing. The environment's answer to `loadLogo()` is
the `loadOk` predicate on the image index. -/
def app_update_animate_images (loadOk : Int → Bool) (app_image_count : Nat)
    (app_step : Int) : Int × TickOutcome :=
  let s := (app_step + 1) % (app_image_count : Int)
  if loadOk s then (s, .drew s) else (s, .stopRequested)

/-- The `app_step` value after `n` animation timer callbacks, starting from
the initial `-1`. -/
def animSteps (app_image_count : Nat) : Nat → Int
  | 0 => -1
  | n + 1 => (animSteps app_image_count n + 1) % (app_image_count : Int)

theorem animSteps_closed_form (N : Nat) (hN : 2 ≤ N) :
    ∀ n : Nat, animSteps N (n + 1) = (n : Int) % (N : Int) := by
  intro n
  induction n with
  | zero =>
      show (-1 + 1) % (N : Int) = (0 : Int) % (N : Int)
      norm_num
  | succ n ih =>
      show (animSteps N (n + 1) + 1) % (N : Int) = ((n : Int) + 1) % (N : Int)
      have h1 : (1 : Int) % (N : Int) = 1 :=
        Int.emod_eq_of_lt (by omega) (by exact_mod_cast hN)
      rw [ih]
      conv_rhs => rw [Int.add_emod, h1]

/-- **C6.** In animate mode with `N ≥ 2` images and total duration `D`: the
per-frame period is exactly `ceil(D / N)`; each tick advances the zero-based
index by exactly one modulo `N`, so after `n + 1` ticks the index is
`n mod N`; a successful load draws that image and keeps the timer; a load
failure on any tick requests a global stop (aborting the run) without
drawing. -/
theorem C6_animate_mode :
    (∀ D N : Nat, 2 ≤ N →
        D ≤ N * app_animate_period D N
        ∧ (∀ q : Nat, D ≤ N * q → app_animate_period D N ≤ q))
    ∧ (∀ (N n : Nat),
        animSteps N (n + 1) = (animSteps N n + 1) % (N : Int))
    ∧ (∀ (N n : Nat), 2 ≤ N → animSteps N (n + 1) = (n : Int) % (N : Int))
    ∧ (∀ (loadOk : Int → Bool) (N n : Nat),
        loadOk (animSteps N (n + 1)) = true →
          app_update_animate_images loadOk N (animSteps N n)
            = (animSteps N (n + 1), TickOutcome.drew (animSteps N (n + 1))))
    ∧ (∀ (loadOk : Int → Bool) (N : Nat) (s : Int),
        loadOk ((s + 1) % (N : Int)) = false →
          app_update_animate_images loadOk N s
            = ((s + 1) % (N : Int), TickOutcome.stopRequested)) := by
  refine ⟨?_, fun N n => rfl, fun N n hN => animSteps_closed_form N hN n,
    ?_, ?_⟩
  · intro D N hN
    exact ceil_div_spec D N (by omega)
  · intro loadOk N n h
    show (if loadOk (animSteps N (n + 1)) = true
          then (animSteps N (n + 1), TickOutcome.drew (animSteps N (n + 1)))
          else (animSteps N (n + 1), TickOutcome.stopRequested)) = _
    simp [h]
  · intro loadOk N s h
    show (if loadOk ((s + 1) % (N : Int)) = true
          then ((s + 1) % (N : Int),
                TickOutcome.drew ((s + 1) % (N : Int)))
          else ((s + 1) % (N : Int), TickOutcome.stopRequested)) = _
    simp [h]

/-- Witness for C6: period for duration 500 with 2 images is 250, the index
after 5 ticks of a 2-image animation is 0, and a failing load on index 0
stops the run — the theorem applied at concrete inputs. -/
theorem C6_animate_mode_witness :
    app_animate_period 500 2 ≤ 250
    ∧ animSteps 2 5 = (4 : Int) % (2 : Int)
    ∧ app_update_animate_images (fun _ => false) 2 (-1)
        = (0, TickOutcome.stopRequested) :=
  ⟨(C6_animate_mode.1 500 2 (by decide)).2 250 (by decide),
   C6_animate_mode.2.2.1 2 4 (by decide),
   C6_animate_mode.2.2.2.2 (fun _ => false) 2 (-1) (by decide)⟩

/-! ## SYSTEMBUS socket probing and deferred compositor connect
(src/yamui.c, SYSTEMBUS + COMPOSITOR sections)

State: `systembus_socket_exists` and whether a deferred connect timeout is
pending (`compositor_connect_id != 0`).  The reified actions are the
`g_timeout_add` call of `compositor_schedule_connect()` and the
`mainloop_stop()` request. -/

structure BusState where
  socketExists   : Bool
  connectPending : Bool
deriving DecidableEq, Repr, Fintype

inductive BusAction
  | connectTimerAdded
  | stopRequested
deriving DecidableEq, Repr

/-- Embedding of `compositor_schedule_connect()`: arms the 50 ms connect
timeout only when none is pending. -/
def compositor_schedule_connect (s : BusState) : BusState × List BusAction :=
  if !s.connectPending then
    ({ s with connectPending := true }, [.connectTimerAdded])
  else (s, [])

/-- Embedding of `systembus_probe_socket()`: reacts only to edges of the
observed socket existence; became present → schedule a deferred connect,
became absent → request a global stop. -/
def systembus_probe_socket (socket_exists : Bool) (s : BusState) :
    BusState × List BusAction :=
  if s.socketExists != socket_exists then
    let s1 := { s with socketExists := socket_exists }
    if socket_exists then compositor_schedule_connect s1
    else (s1, [.stopRequested])
  else (s, [])

/-- A burst of socket-presence notifications: each observation is handled by
`systembus_probe_socket()`, with no timer callback running in between. -/
def busProbeRun (obs : List Bool) (s : BusState) : BusState × List BusAction :=
  match obs with
  | [] => (s, [])
  | o :: rest =>
      let r := systembus_probe_socket o s
      let r2 := busProbeRun rest r.1
      (r2.1, r.2 ++ r2.2)

theorem probe_pending_mono (o : Bool) (s : BusState)
    (h : s.connectPending = true) :
    (systembus_probe_socket o s).1.connectPending = true := by
  revert o s h
  decide

theorem probe_timer_only_when_clear (o : Bool) (s : BusState)
    (h : s.connectPending = true) :
    (systembus_probe_socket o s).2.count BusAction.connectTimerAdded = 0 := by
  revert o s h
  decide

theorem probe_timer_le_one (o : Bool) (s : BusState) :
    (systembus_probe_socket o s).2.count BusAction.connectTimerAdded
      ≤ 1 ∧ ((systembus_probe_socket o s).2.count BusAction.connectTimerAdded
        = 1 → (systembus_probe_socket o s).1.connectPending = true) := by
  revert o s
  decide

theorem busProbeRun_pending_mono (obs : List Bool) (s : BusState)
    (h : s.connectPending = true) :
    (busProbeRun obs s).1.connectPending = true := by
  induction obs generalizing s with
  | nil => exact h
  | cons o rest ih =>
      exact ih (systembus_probe_socket o s).1 (probe_pending_mono o s h)

theorem busProbeRun_timer_count (obs : List Bool) (s : BusState) :
    ((busProbeRun obs s).2.count BusAction.connectTimerAdded ≤ 1
      ∧ ((busProbeRun obs s).2.count BusAction.connectTimerAdded = 1
          → (busProbeRun obs s).1.connectPending = true))
    ∧ (s.connectPending = true →
        (busProbeRun obs s).2.count BusAction.connectTimerAdded = 0) := by
  induction obs generalizing s with
  | nil => exact ⟨⟨by simp [busProbeRun], by simp [busProbeRun]⟩,
      fun _ => by simp [busProbeRun]⟩
  | cons o rest ih =>
      have hcount : (busProbeRun (o :: rest) s).2
          = (systembus_probe_socket o s).2
            ++ (busProbeRun rest (systembus_probe_socket o s).1).2 := rfl
      have hstate : (busProbeRun (o :: rest) s).1
          = (busProbeRun rest (systembus_probe_socket o s).1).1 := rfl
      constructor
      · constructor
        · rw [hcount, List.count_append]
          rcases Nat.eq_zero_or_pos
              ((systembus_probe_socket o s).2.count
                BusAction.connectTimerAdded) with h0 | hpos
          · rw [h0]
            simpa using (ih (systembus_probe_socket o s).1).1.1
          · have h1 : (systembus_probe_socket o s).2.count
                BusAction.connectTimerAdded = 1 := by
              have := (probe_timer_le_one o s).1
              omega
            have hp : (systembus_probe_socket o s).1.connectPending = true :=
              (probe_timer_le_one o s).2 h1
            have hz := (ih (systembus_probe_socket o s).1).2 hp
            omega
        · intro h1
          rw [hstate]
          rcases Nat.eq_zero_or_pos
              ((systembus_probe_socket o s).2.count
                BusAction.connectTimerAdded) with h0 | hpos
          · rw [hcount, List.count_append, h0] at h1
            exact (ih (systembus_probe_socket o s).1).1.2 (by omega)
          · have hp : (systembus_probe_socket o s).1.connectPending = true :=
              (probe_timer_le_one o s).2 (by
                have := (probe_timer_le_one o s).1
                omega)
            exact busProbeRun_pending_mono rest
              (systembus_probe_socket o s).1 hp
      · intro hp
        rw [hcount, List.count_append,
          probe_timer_only_when_clear o s hp,
          (ih (systembus_probe_socket o s).1).2
            (probe_pending_mono o s hp)]

/-- **C7.** Scheduling a compositor connect is a no-op while an attempt is
already pending, so any burst of bus-socket presence notifications creates
at most one deferred connect timer (and exactly when one is created, one is
left pending); and whenever the bus socket transitions from present to
absent, a global stop is requested. -/
theorem C7_connect_coalesced_and_absence_stops :
    (∀ s : BusState, s.connectPending = true →
        compositor_schedule_connect s = (s, []))
    ∧ (∀ (obs : List Bool) (s : BusState),
        (busProbeRun obs s).2.count BusAction.connectTimerAdded ≤ 1)
    ∧ (∀ s : BusState, s.socketExists = true →
        systembus_probe_socket false s
          = ({ s with socketExists := false }, [BusAction.stopRequested])) := by
  refine ⟨by decide, ?_, by decide⟩
  intro obs s
  exact (busProbeRun_timer_count obs s).1.1

/-- Witness for C7: a rapid burst present/absent/present/present schedules
one timer; and an already-pending state schedules none; and the
present→absent edge requests stop — the theorem applied at concrete
inputs. -/
theorem C7_connect_coalesced_and_absence_stops_witness :
    compositor_schedule_connect
        { socketExists := true, connectPending := true }
      = ({ socketExists := true, connectPending := true }, [])
    ∧ (busProbeRun [true, false, true, true]
        { socketExists := false, connectPending := false }).2.count
          BusAction.connectTimerAdded ≤ 1
    ∧ systembus_probe_socket false
        { socketExists := true, connectPending := true }
      = ({ socketExists := false, connectPending := true },
         [BusAction.stopRequested]) :=
  ⟨C7_connect_coalesced_and_absence_stops.1
      { socketExists := true, connectPending := true } (by decide),
   C7_connect_coalesced_and_absence_stops.2.1 [true, false, true, true]
      { socketExists := false, connectPending := false },
   C7_connect_coalesced_and_absence_stops.2.2
      { socketExists := true, connectPending := true } (by decide)⟩

/-! ## COMPOSITOR method dispatch (src/yamui.c, `compositor_method_call_cb()`) -/

def COMPOSITOR_SET_UPDATES_ENABLED : String := "setUpdatesEnabled"

def COMPOSITOR_GET_TOPMOST_WINDOW_PID : String :=
  "privateTopmostWindowProcessId"

def COMPOSITOR_GET_SETUP_ACTIONS : String := "privateGetSetupActions"

def COMPOSITOR_ACTION_NONE : Nat := 0

def COMPOSITOR_ACTION_STOP_HWC : Nat := 1

def COMPOSITOR_ACTION_START_HWC : Nat := 2

def COMPOSITOR_ACTION_RESTART_HWC : Nat := 4

/-- Reply sent through the method invocation. -/
inductive DbusReply
  | unit
  | pid (p : Int)
  | flags (f : Nat)
  | notSupportedError (method : String)
deriving DecidableEq, Repr

/-- Result of one incoming method call: the reply, the display state after
handling it, and whether `app_on_enable_from_dbus()` was invoked. -/
structure MethodCallResult where
  reply          : DbusReply
  display        : DisplayState
  enableFromDbus : Bool
deriving DecidableEq, Repr

/-- Embedding of `compositor_method_call_cb()`: dispatch on the method name
(the chain of `g_strcmp0` comparisons).  `selfPid` is the value of
`getpid()`; `enabledArg` is the boolean argument, read only by
`setUpdatesEnabled`; `grInitOk` is the environment's answer to a lazy
display acquisition. -/
def compositor_method_call (selfPid : Int) (grInitOk : Bool)
    (method : String) (enabledArg : Bool) (disp : DisplayState) :
    MethodCallResult :=
  if method = COMPOSITOR_SET_UPDATES_ENABLED then
    { reply := .unit,
      display := display_set_updates_enabled grInitOk enabledArg disp,
      enableFromDbus := enabledArg }
  else if method = COMPOSITOR_GET_TOPMOST_WINDOW_PID then
    { reply := .pid selfPid, display := disp, enableFromDbus := false }
  else if method = COMPOSITOR_GET_SETUP_ACTIONS then
    { reply := .flags COMPOSITOR_ACTION_STOP_HWC, display := disp,
      enableFromDbus := false }
  else
    { reply := .notSupportedError method, display := disp,
      enableFromDbus := false }

/-- **C8.** For every incoming method call on the compositor interface:
the get-topmost-window-pid method replies with this process's own pid as an
int32; the get-setup-actions method always replies with the uint32 bitmask
holding exactly the stop-hardware-compositor bit (value 1 = bit 0, no other
action bit); and any unknown method name is answered with the standard
not-supported error. -/
theorem C8_method_dispatch :
    (∀ (selfPid : Int) (ok arg : Bool) (d : DisplayState),
        (compositor_method_call selfPid ok
            COMPOSITOR_GET_TOPMOST_WINDOW_PID arg d).reply
          = DbusReply.pid selfPid)
    ∧ (∀ (selfPid : Int) (ok arg : Bool) (d : DisplayState),
        (compositor_method_call selfPid ok
            COMPOSITOR_GET_SETUP_ACTIONS arg d).reply
          = DbusReply.flags COMPOSITOR_ACTION_STOP_HWC)
    ∧ COMPOSITOR_ACTION_STOP_HWC = 2 ^ 0
    ∧ COMPOSITOR_ACTION_STOP_HWC
        &&& (COMPOSITOR_ACTION_START_HWC ||| COMPOSITOR_ACTION_RESTART_HWC)
        = 0
    ∧ (∀ (selfPid : Int) (ok arg : Bool) (d : DisplayState) (m : String),
        m ∉ [COMPOSITOR_SET_UPDATES_ENABLED,
             COMPOSITOR_GET_TOPMOST_WINDOW_PID,
             COMPOSITOR_GET_SETUP_ACTIONS] →
          (compositor_method_call selfPid ok m arg d).reply
            = DbusReply.notSupportedError m) := by
  refine ⟨fun p ok arg d => rfl, fun p ok arg d => rfl, rfl, rfl, ?_⟩
  intro selfPid ok arg d m hm
  simp only [List.mem_cons, List.not_mem_nil, or_false, not_or] at hm
  unfold compositor_method_call
  rw [if_neg hm.1, if_neg hm.2.1, if_neg hm.2.2]

/-- Witness for C8: the policy-application-id method is declared in the
introspection data but not handled, so it gets the not-supported error —
the theorem applied at a concrete unknown method name. -/
theorem C8_method_dispatch_witness :
    (compositor_method_call 1234 true
        ("privateTopmostWindowPolicyApplicationId") false
        DisplayState.initial).reply
      = DbusReply.notSupportedError
          ("privateTopmostWindowPolicyApplicationId") :=
  C8_method_dispatch.2.2.2.2 1234 true false DisplayState.initial
    ("privateTopmostWindowPolicyApplicationId") (by decide)

/-! ## MAINLOOP stop and `main()` exit status (src/yamui.c, MAINLOOP + MAIN) -/

def EXIT_SUCCESS : Nat := 0

def EXIT_FAILURE : Nat := 1

/-- Effect of `mainloop_stop()`: with no mainloop handle it `_exit`s the
process immediately (never returning to the caller); otherwise it asks the
running loop to quit. -/
inductive StopEffect
  | exitProcessNow (status : Nat)
  | quitLoop
deriving DecidableEq, Repr

/-- Embedding of `mainloop_stop()`; `loopExists` is whether
`mainloop_handle` is non-NULL. -/
def mainloop_stop (loopExists : Bool) : StopEffect :=
  if loopExists then .quitLoop else .exitProcessNow EXIT_FAILURE

/-- Outcomes of the fallible setup steps in `main()` after option parsing;
each failure jumps to the `cleanup` label. -/
structure MainSetupEnv where
  compositorInitOk     : Bool
  systembusMonitorOk   : Bool
  signalsInitOk        : Bool
  idleAddOk            : Bool
deriving DecidableEq, Repr, Fintype

/-- Embedding of the tail of `main()` from `compositor_init()` onward: every
failing setup step skips ahead to `cleanup`; a succeeding setup runs the
mainloop and falls through to `cleanup`; `cleanup` always ends in
`return EXIT_SUCCESS`.  The second component records whether the mainloop
was actually entered. -/
def main_run (env : MainSetupEnv) : Nat × Bool :=
  if !env.compositorInitOk then (EXIT_SUCCESS, false)
  else if !env.systembusMonitorOk then (EXIT_SUCCESS, false)
  else if !env.signalsInitOk then (EXIT_SUCCESS, false)
  else if !env.idleAddOk then (EXIT_SUCCESS, false)
  else (EXIT_SUCCESS, true)

/-- **C9.** Whatever the setup steps' outcomes — including every fatal setup
error that jumps to `cleanup` — reaching the end of `main()` returns the
success exit status; and a stop requested while no mainloop handle exists
terminates the process immediately via `_exit` instead of returning, while
with a running loop it merely quits the loop. -/
theorem C9_exit_status :
    (∀ env : MainSetupEnv, (main_run env).1 = EXIT_SUCCESS)
    ∧ mainloop_stop false = StopEffect.exitProcessNow EXIT_FAILURE
    ∧ mainloop_stop true = StopEffect.quitLoop := by
  refine ⟨?_, rfl, rfl⟩
  decide

/-! ## Image registration (src/yamui.c, `app_add_image()` and `main()`) -/

def IMAGES_MAX : Nat := 30

/-- The three candidate paths tried, in order, by `app_add_image()`: the
literal name, `dir/name`, `dir/name.png`. -/
def app_image_candidates (app_images_dir filename : String) : List String :=
  [filename,
   app_images_dir ++ ("/") ++ filename,
   app_images_dir ++ ("/") ++ filename ++ (".png")]

/-- Embedding of `app_add_image()`: with room left, the first readable
candidate is appended to the image list; when none is readable the name is
dropped with only a log message — the list is unchanged and nothing else
happens (in particular no stop request: the reified action list stays
empty). -/
def app_add_image (readable : String → Bool) (app_images_dir : String)
    (filename : String) (app_images : List String) :
    List String × List BusAction :=
  if app_images.length ≥ IMAGES_MAX then (app_images, [])
  else
    match (app_image_candidates app_images_dir filename).find? readable with
    | some filepath => (app_images ++ [filepath], [])
    | none => (app_images, [])

/-- Embedding of the post-option check in `main()`: with no images and no
text it prints usage and exits with failure, otherwise startup proceeds. -/
def main_images_check (app_images : List String)
    (app_text : Option String) : Bool :=
  decide (app_images.length < 1) && app_text.isNone

/-- **C10.** When none of the three candidate paths for a command-line image
name is readable, `app_add_image()` adds no entry: the image list (and so
the image count) is unchanged and no stop or other action is requested;
in general the entry appended is the first readable candidate; and startup
aborts only when zero images and no text remain after all names were
processed. -/
theorem C10_unreadable_image_dropped :
    (∀ (readable : String → Bool) (dir name : String)
        (images : List String),
        (∀ c ∈ app_image_candidates dir name, readable c = false) →
          app_add_image readable dir name images = (images, []))
    ∧ (∀ (readable : String → Bool) (dir name : String)
        (images : List String) (p : String),
        images.length < IMAGES_MAX →
        (app_image_candidates dir name).find? readable = some p →
          app_add_image readable dir name images = (images ++ [p], []))
    ∧ (∀ (images : List String) (text : Option String),
        main_images_check images text = true
          ↔ images = [] ∧ text = none) := by
  refine ⟨?_, ?_, ?_⟩
  · intro readable dir name images h
    unfold app_add_image
    have hfind : (app_image_candidates dir name).find? readable = none := by
      rw [List.find?_eq_none]
      intro c hc
      rw [h c hc]
      exact Bool.false_ne_true
    rw [hfind]
    split <;> rfl
  · intro readable dir name images p hlen hfind
    unfold app_add_image
    rw [if_neg (by omega), hfind]
  · intro images text
    unfold main_images_check
    cases images with
    | nil =>
        cases text with
        | none => simp
        | some t => simp
    | cons a rest => simp

/-- Witness for C10: a readability oracle that rejects everything leaves a
one-image list unchanged with no action, and the startup check then depends
only on the remaining images/text — the theorem applied at concrete
inputs. -/
theorem C10_unreadable_image_dropped_witness :
    app_add_image (fun _ => false) ("/res/images") ("missing")
        [("/res/images/good.png")]
      = ([("/res/images/good.png")], [])
    ∧ (main_images_check [] none = true ↔ ([] : List String) = []
        ∧ (none : Option String) = none) :=
  ⟨C10_unreadable_image_dropped.1 (fun _ => false) ("/res/images")
      ("missing") [("/res/images/good.png")] (fun _ _ => rfl),
   C10_unreadable_image_dropped.2.2 [] none⟩

end Yamui
